import Mathlib

/-!
Verification of the bash-command security hook (`examples/security.py`).

The Python source is shallowly embedded below.  Strings are Lean `String`s;
character-level scanning works on `List Char`, and every definition is
structurally recursive (a few scanners carry an explicit `fuel : Nat` that is
always initialized to more steps than the scan can take), so that concrete
evaluations reduce inside the kernel.  The only effectful part of the source,
filesystem path resolution (`pathlib.Path.resolve`) and home-directory
expansion (`os.path.expanduser`), is abstracted as an `FS` record of pure
functions; a concrete lexical instance `fsDefault` (a symlink-free filesystem
with home `/root`) is used for concrete evaluations.
-/

namespace SecurityHook

/-! ## Basic string helpers (Python semantics) -/

/-- Whitespace recognized by `shlex` (its `whitespace` attribute is `" \t\r\n"`). -/
def shlexWS (c : Char) : Bool :=
  c = ' ' || c = '\t' || c = '\r' || c = '\n'

/-- ASCII whitespace of Python's regex `\s` and `str.strip`/`str.split`. -/
def pyWS (c : Char) : Bool :=
  c = ' ' || c = '\t' || c = '\n' || c = '\r' || c = '\x0b' || c = '\x0c'

/-- `pre` is a prefix of `s` (Python `s.startswith(pre)`). -/
def strStartsWith (s pre : String) : Bool :=
  pre.toList.isPrefixOf s.toList

/-- `suf` is a suffix of `s` (Python `s.endswith(suf)`). -/
def strEndsWith (s suf : String) : Bool :=
  suf.toList.reverse.isPrefixOf s.toList.reverse

/-- Python `s[n:]`. -/
def strDrop (s : String) (n : Nat) : String :=
  String.mk (s.toList.drop n)

/-- Split a character list at every occurrence of `sep` (the separator is
dropped; empty pieces are kept). -/
def splitOnCharGo (sep : Char) : List Char → List Char → List (List Char)
  | [], acc => [acc.reverse]
  | c :: cs, acc =>
    if c = sep then acc.reverse :: splitOnCharGo sep cs []
    else splitOnCharGo sep cs (c :: acc)

/-- `s.split(sep)` for a one-character separator. -/
def strSplitOnChar (s : String) (sep : Char) : List String :=
  (splitOnCharGo sep s.toList []).map String.mk

/-- `sep.join(xs)`. -/
def strIntercalate (sep : String) : List String → String
  | [] => ""
  | [x] => x
  | x :: xs => x ++ sep ++ strIntercalate sep xs

/-- `s` contains character `c` (Python `c in s`). -/
def strHasChar (s : String) (c : Char) : Bool :=
  s.toList.contains c

/-- Python `str.strip()` (ASCII whitespace). -/
def pyStrip (s : String) : String :=
  String.mk (((s.toList.dropWhile pyWS).reverse.dropWhile pyWS).reverse)

/-- `os.path.basename` on POSIX: everything after the last `/`. -/
def pyBasename (s : String) : String :=
  String.mk ((s.toList.reverse.takeWhile (fun c => c ≠ '/')).reverse)

/-- Python `str.lower()` (ASCII relevant fragment). -/
def pyLower (s : String) : String := String.mk (s.toList.map Char.toLower)

/-- Python `str.upper()` (ASCII relevant fragment). -/
def pyUpper (s : String) : String := String.mk (s.toList.map Char.toUpper)

/-- Whether `needle` occurs as a contiguous subsequence of `hay`
(Python's `needle in hay` on strings). -/
def listContainsSeq (needle : List Char) : List Char → Bool
  | [] => needle.isEmpty
  | c :: cs => needle.isPrefixOf (c :: cs) || listContainsSeq needle cs

/-- Python `sub in s` for strings. -/
def strContains (s sub : String) : Bool :=
  listContainsSeq sub.toList s.toList

/-- Digit run of a Python integer literal body: `digit (digit | '_' digit)*`.
(Underscores are legal in `int(...)` only between digits.) -/
def pyDigitsOk : List Char → Bool
  | [] => true
  | '_' :: d :: rest => d.isDigit && pyDigitsOk (d :: rest)
  | '_' :: [] => false
  | d :: rest => d.isDigit && pyDigitsOk rest

/-- Value of a digit/underscore run (underscores skipped). -/
def pyDigitsVal (cs : List Char) : Nat :=
  cs.foldl (fun a c => if c.isDigit then a * 10 + (c.toNat - '0'.toNat) else a) 0

/-- Python `int(s)`: optional surrounding whitespace, optional sign, decimal
digits with underscores between digits.  `none` models `ValueError`. -/
def pyInt (s : String) : Option Int :=
  let cs := ((s.toList.dropWhile pyWS).reverse.dropWhile pyWS).reverse
  match cs with
  | '+' :: rest =>
      if rest ≠ [] && rest.head?.all Char.isDigit && pyDigitsOk rest then
        some (Int.ofNat (pyDigitsVal rest))
      else none
  | '-' :: rest =>
      if rest ≠ [] && rest.head?.all Char.isDigit && pyDigitsOk rest then
        some (-(Int.ofNat (pyDigitsVal rest)))
      else none
  | rest =>
      if rest ≠ [] && rest.head?.all Char.isDigit && pyDigitsOk rest then
        some (Int.ofNat (pyDigitsVal rest))
      else none

/-! ## `shlex.split` (POSIX mode, `whitespace_split=True`, comments off)

Faithful to CPython's `shlex` state machine restricted to the features it can
reach under `shlex.split`: whitespace separation, `'...'` (no escapes inside),
`"..."` (backslash escapes only `"` and `\` inside; otherwise the backslash is
kept), backslash escapes any next character outside quotes.  An unterminated
quote or trailing backslash raises `ValueError`, modelled as `none`. -/

/-- Lexer state: outside quotes, inside `'...'`, inside `"..."`. -/
inductive ShMode
  | norm
  | insq
  | indq
deriving DecidableEq, Repr

/-- The `shlex` state machine.  `tok` is the current token (reversed), `none`
when no token has started (a closed quote pair keeps an empty token alive);
`acc` collects finished tokens (each reversed back) in reverse order. -/
def shlexRun : List Char → ShMode → Option (List Char) → List (List Char) →
    Option (List (List Char))
  | [], .norm, none, acc => some acc.reverse
  | [], .norm, some t, acc => some (t.reverse :: acc).reverse
  | [], _, _, _ => none
  | c :: cs, .norm, tok, acc =>
    if shlexWS c then
      match tok with
      | none => shlexRun cs .norm none acc
      | some t => shlexRun cs .norm none (t.reverse :: acc)
    else if c = '\'' then shlexRun cs .insq (some (tok.getD [])) acc
    else if c = '"' then shlexRun cs .indq (some (tok.getD [])) acc
    else if c = '\\' then
      match cs with
      | [] => none
      | d :: cs' => shlexRun cs' .norm (some (d :: tok.getD [])) acc
    else shlexRun cs .norm (some (c :: tok.getD [])) acc
  | c :: cs, .insq, tok, acc =>
    if c = '\'' then shlexRun cs .norm tok acc
    else shlexRun cs .insq (some (c :: tok.getD [])) acc
  | c :: cs, .indq, tok, acc =>
    if c = '"' then shlexRun cs .norm tok acc
    else if c = '\\' then
      match cs with
      | [] => none
      | d :: cs' =>
        if d = '"' || d = '\\' then shlexRun cs' .indq (some (d :: tok.getD [])) acc
        else shlexRun cs' .indq (some (d :: '\\' :: tok.getD [])) acc
    else shlexRun cs .indq (some (c :: tok.getD [])) acc

/-- `shlex.split(s)`; `none` models `ValueError` (unterminated quoting). -/
def shlexSplit (s : String) : Option (List String) :=
  (shlexRun s.toList .norm none []).map (fun ts => ts.map String.mk)

/-! ## The two `re.split` patterns

`extract_commands` and `split_command_segments` split on the regex
`(?<!["\'])\s*;\s*(?!["\'])`; `split_command_segments` additionally splits on
`\s*(?:&&|\|\|)\s*`.  Both are modelled as left-to-right leftmost-match
scanners with the exact greedy/backtracking behaviour of `re`:  for the
semicolon pattern the trailing `\s*` gives back one whitespace character when
the lookahead (next char not a quote) fails on the greedy match. -/

/-- Try to match `(?<!["\'])\s*;\s*(?!["\'])` at the current position, where
`prev` is the character just before the position (for the lookbehind).
On success returns the last consumed character (needed as the lookbehind
character after the match) and `n` with `n + 1` characters consumed. -/
def matchSemiAt (prev : Option Char) (rest : List Char) : Option (Char × Nat) :=
  if prev = some '"' || prev = some '\'' then none
  else
    let w1 := rest.takeWhile pyWS
    let r1 := rest.drop w1.length
    match r1 with
    | ';' :: r2 =>
      let w2 := r2.takeWhile pyWS
      let r3 := r2.drop w2.length
      (match r3.head? with
       | none => some (if w2.isEmpty then ';' else w2.getLast!, w1.length + w2.length)
       | some c =>
         if c = '"' || c = '\'' then
           if w2.isEmpty then none
           else some (if w2.length = 1 then ';' else w2.dropLast.getLast!,
                      w1.length + (w2.length - 1))
         else some (if w2.isEmpty then ';' else w2.getLast!, w1.length + w2.length))
    | _ => none

/-- `re.split(r'(?<!["\'])\s*;\s*(?!["\'])', s)`, as a scanner.  `prev` is the
character before the current position in the original string.  `fuel` only
bounds the recursion of the embedding: every step consumes at least one
character, so `length + 1` steps always complete the scan. -/
def reSplitSemiGo : Nat → List Char → Option Char → List Char → List (List Char)
  | 0, _, _, acc => [acc.reverse]
  | _ + 1, [], _, acc => [acc.reverse]
  | fuel + 1, c :: cs, prev, acc =>
    match matchSemiAt prev (c :: cs) with
    | some (last, n) =>
        acc.reverse :: reSplitSemiGo fuel ((c :: cs).drop (n + 1)) (some last) []
    | none => reSplitSemiGo fuel cs (some c) (c :: acc)

def reSplitSemi (s : List Char) : List (List Char) :=
  reSplitSemiGo (s.length + 1) s none []

/-- Try to match `\s*(?:&&|\|\|)\s*` at the current position.  On success
returns `m` with `m + 2` characters consumed. -/
def matchAndOrAt (rest : List Char) : Option Nat :=
  let w1 := rest.takeWhile pyWS
  let r1 := rest.drop w1.length
  match r1 with
  | '&' :: '&' :: r2 => some (w1.length + (r2.takeWhile pyWS).length)
  | '|' :: '|' :: r2 => some (w1.length + (r2.takeWhile pyWS).length)
  | _ => none

/-- `re.split(r"\s*(?:&&|\|\|)\s*", s)`, as a scanner (same fuel discipline
as `reSplitSemiGo`; every step consumes at least one character). -/
def splitAndOrGo : Nat → List Char → List Char → List (List Char)
  | 0, _, acc => [acc.reverse]
  | _ + 1, [], acc => [acc.reverse]
  | fuel + 1, c :: cs, acc =>
    match matchAndOrAt (c :: cs) with
    | some m => acc.reverse :: splitAndOrGo fuel ((c :: cs).drop (m + 2)) []
    | none => splitAndOrGo fuel cs (c :: acc)

/-! ## `extract_commands` -/

/-- Shell keywords skipped by the extractor (the `for`/`select` pair is
handled separately). -/
def shellKeywords : List String :=
  ["if", "then", "else", "elif", "fi", "while", "until", "do", "done",
   "case", "esac", "in", "!", "\x7b", "\x7d"]

/-- The token walk of `extract_commands`: `expectCmd` tracks whether the next
word token is a command; `skipVar` is set after `for`/`select` so the loop
variable is not counted. -/
def extractFromTokens : List String → Bool → Bool → List String
  | [], _, _ => []
  | t :: ts, expectCmd, skipVar =>
    let hasSC := strEndsWith t ";"
    let t' := if hasSC then String.mk t.toList.dropLast else t
    if hasSC && t' = "" then extractFromTokens ts true skipVar
    else if skipVar then extractFromTokens ts (if hasSC then true else false) false
    else if t' = "|" || t' = "||" || t' = "&&" || t' = "&" || t' = ";" then
      extractFromTokens ts true false
    else if t' = "for" || t' = "select" then
      extractFromTokens ts expectCmd true
    else if t' ∈ shellKeywords then
      extractFromTokens ts (if hasSC then true else expectCmd) false
    else if strStartsWith t' "-" then
      extractFromTokens ts (if hasSC then true else expectCmd) false
    else if strContains t' "=" && !strStartsWith t' "=" then
      extractFromTokens ts (if hasSC then true else expectCmd) false
    else if expectCmd then
      pyBasename t' :: extractFromTokens ts (if hasSC then true else false) false
    else
      extractFromTokens ts (if hasSC then true else expectCmd) false

/-- Loop of `extract_commands` over pre-stripped, nonempty segments: any
segment that `shlex` cannot parse aborts the whole extraction with `[]`
(the fail-safe `return []` in the source). -/
def extractCommandsOverSegments : List String → List String → List String
  | [], acc => acc
  | seg :: rest, acc =>
    match shlexSplit seg with
    | none => []
    | some tokens => extractCommandsOverSegments rest (acc ++ extractFromTokens tokens true false)

/-- `extract_commands(command_string)`. -/
def extract_commands (s : String) : List String :=
  let segs := ((reSplitSemi s.toList).map (fun seg => pyStrip (String.mk seg))).filter
    (fun seg => seg ≠ "")
  extractCommandsOverSegments segs []

/-! ## `extract_substitution_commands` -/

/-- The `$(...)` body scan: counts characters consumed by the matching loop,
respecting quote state and nested `$(`/`(`/`)`.  `prev` is the previously
processed character (initially the `(` of the opening `$(`).  Returns the
total number of characters consumed up to and including the closing
parenthesis, `none` if the end of the string is reached at positive depth. -/
def scanBodyLen : List Char → Char → Nat → Bool → Bool → Option Nat
  | [], _, _, _, _ => none
  | '$' :: '(' :: cs', _, depth, inSq, inDq =>
    if inSq || inDq then (scanBodyLen ('(' :: cs') '$' depth inSq inDq).map (· + 1)
    else (scanBodyLen cs' '(' (depth + 1) inSq inDq).map (· + 2)
  | '$' :: cs, _, depth, inSq, inDq =>
    (scanBodyLen cs '$' depth inSq inDq).map (· + 1)
  | c :: cs, prev, depth, inSq, inDq =>
    if c = '\'' && !inDq then (scanBodyLen cs c depth (!inSq) inDq).map (· + 1)
    else if c = '"' && !inSq then (scanBodyLen cs c depth inSq (!inDq)).map (· + 1)
    else if inSq || inDq then (scanBodyLen cs c depth inSq inDq).map (· + 1)
    else if c = '(' && prev ≠ '$' then (scanBodyLen cs c (depth + 1) inSq inDq).map (· + 1)
    else if c = ')' then
      if depth = 1 then some 1
      else (scanBodyLen cs c (depth - 1) inSq inDq).map (· + 1)
    else (scanBodyLen cs c depth inSq inDq).map (· + 1)

/-- Top-level `$(...)` bodies.  After an unclosed `$(` the scan index reaches
the end of the string, so nothing further is found.  `fuel` bounds the
embedding's recursion; every step consumes at least one character. -/
def scanDollarF : Nat → List Char → List (List Char)
  | 0, _ => []
  | _ + 1, [] => []
  | fuel + 1, '$' :: '(' :: rest =>
    (match scanBodyLen rest '(' 1 false false with
     | some n => rest.take (n - 1) :: scanDollarF fuel (rest.drop n)
     | none => [])
  | fuel + 1, _ :: rest => scanDollarF fuel rest

def scanDollar (s : List Char) : List (List Char) :=
  scanDollarF (s.length + 1) s

/-- Bodies of backtick substitutions, via the regex `` `([^`]*)` ``
(non-overlapping, left to right).  Same fuel discipline. -/
def backtickBodiesF : Nat → List Char → List (List Char)
  | 0, _ => []
  | _ + 1, [] => []
  | fuel + 1, '`' :: rest =>
    let body := rest.takeWhile (fun c => c ≠ '`')
    if (rest.drop body.length).isEmpty then []
    else body :: backtickBodiesF fuel (rest.drop (body.length + 1))
  | fuel + 1, _ :: rest => backtickBodiesF fuel rest

def backtickBodies (s : List Char) : List (List Char) :=
  backtickBodiesF (s.length + 1) s

/-- Plain parenthesis-depth scan for process substitutions (no quote
awareness, exactly as in the source).  Returns characters consumed up to and
including the closing parenthesis. -/
def scanParenLen : List Char → Nat → Option Nat
  | [], _ => none
  | c :: cs, depth =>
    if c = '(' then (scanParenLen cs (depth + 1)).map (· + 1)
    else if c = ')' then
      if depth = 1 then some 1 else (scanParenLen cs (depth - 1)).map (· + 1)
    else (scanParenLen cs depth).map (· + 1)

/-- Bodies of `<(...)` and `>(...)` process substitutions: the regex
`[<>]\(` locates each opener; the depth scan starts after it.  The search for
further openers resumes right after the two-character match. -/
def procSubBodies : List Char → List (List Char)
  | [] => []
  | c :: '(' :: rest =>
    if c = '<' || c = '>' then
      (match scanParenLen rest 1 with
       | some n => [rest.take (n - 1)]
       | none => []) ++ procSubBodies ('(' :: rest)
    else procSubBodies ('(' :: rest)
  | _ :: rest => procSubBodies rest

/-- Recursive core of `extract_substitution_commands`.  The `fuel` argument
only bounds the recursion depth of the embedding; since every substitution
body is at least two characters shorter than its enclosing string, a fuel of
`length + 1` is never exhausted and the function agrees with the unbounded
recursion of the source. -/
def subCmds : Nat → List Char → List String
  | 0, _ => []
  | fuel + 1, s =>
    (scanDollar s).flatMap
      (fun b => extract_commands (String.mk b) ++ subCmds fuel b)
    ++ (backtickBodies s).flatMap
      (fun b => extract_commands (String.mk b) ++ subCmds fuel b)
    ++ (procSubBodies s).flatMap
      (fun b => extract_commands (String.mk b) ++ subCmds fuel b)

/-- `extract_substitution_commands(command_string)`. -/
def extract_substitution_commands (s : String) : List String :=
  subCmds (s.length + 1) s.toList

/-- `split_command_segments(command_string)`: split on `&&`/`||`, then on the
semicolon pattern, strip, drop empties.  (Each `&&`/`||` piece is re-scanned
by the semicolon pattern from a fresh position, so its lookbehind starts
empty, exactly as `re.split` applied to the piece.) -/
def split_command_segments (s : String) : List String :=
  ((splitAndOrGo (s.length + 1) s.toList []).flatMap
    (fun piece =>
      (reSplitSemiGo (piece.length + 1) piece none []).map
        (fun sub => pyStrip (String.mk sub)))).filter
    (fun seg => seg ≠ "")

/-- `get_command_for_validation(cmd, segments)`: first segment whose extracted
commands contain `cmd`, else the empty string. -/
def get_command_for_validation (cmd : String) (segments : List String) : String :=
  (segments.find? (fun seg => (extract_commands seg).contains cmd)).getD ""

/-! ## Static configuration (the module-level sets)

The source stores these as Python `set`s; only membership is ever used to
make a decision, which is iteration-order independent, so lists in source
order are a faithful model.  (Three reason strings interpolate a whole set —
`{allowed_signals}` and alike — whose rendering order CPython leaves to hash
order; the embedding renders those sets in source order.  No claim depends on
that text.) -/

def ALLOWED_COMMANDS : List String :=
  ["ls", "cat", "find", "head", "tail", "wc", "grep", "awk", "tee", "stat", "tree",
   "touch", "cp", "mkdir", "chmod", "rm", "rmdir", "mv",
   "pwd",
   "npm", "node", "pnpm", "sort", "npx", "vite", "next", "tsc", "eslint", "jest", "vitest",
   "gradle", "gradlew", "java", "mvn", "mvnw",
   "python", "pip", "uv", "uvx", "ruff", "mypy", "uvicorn", "pylint", "flake8", "pytest",
   "docker", "kubectl",
   "cargo", "rustc",
   "go",
   "swift", "xcodebuild",
   "sonar-scanner", "swiftlint", "clippy", "golangci-lint",
   "psql", "mysql",
   "curl",
   "git",
   "ps", "lsof", "sleep", "nohup", "pkill", "kill", "systemctl", "source", "tr",
   "journalctl", "netstat",
   "ac", "ac-msg",
   "jq",
   "read", "test", "true", "false", "printf",
   "date", "basename", "dirname", "cut", "sed", "diff", "realpath", "readlink",
   "mktemp", "id", "seq",
   "echo", "which", "jar", "unzip",
   "start.sh", "stop.sh", "restart.sh", "shutdown.sh", "startup.sh", "build.sh",
   "kcadm.sh", "kc.sh"]

def COMMANDS_NEEDING_EXTRA_VALIDATION : List String :=
  ["pkill", "chmod", "start.sh", "restart.sh", "stop.sh", "docker", "systemctl",
   "rm", "rmdir", "kill"]

def SENSITIVE_SYSTEM_DIRECTORIES : List String :=
  ["/etc/passwd", "/etc/shadow", "/etc/sudoers", "/etc/ssh",
   "/etc/ssl", "/etc/pki", "/etc/security",
   "/root", "/home",
   "/var/log", "/var/run", "/var/spool",
   "/proc", "/sys", "/dev",
   "/boot", "/lib/firmware",
   "~/.ssh", "~/.gnupg", "~/.aws", "~/.config",
   ".env", ".git/config", "credentials", "secrets"]

/-- Deterministic stand-in for CPython's `repr` of a `set` of strings
(hash-ordered there; source-ordered here). -/
def pySetRepr (xs : List String) : String :=
  "\x7b" ++ strIntercalate ", " (xs.map (fun x => "'" ++ x ++ "'")) ++ "\x7d"

/-- Convert a validator result `(is_allowed, reason)` to an optional block
reason. -/
def toReason (p : Bool × String) : Option String :=
  if p.1 then none else some p.2

/-! ## Per-command validators -/

/-- Allowed process names for `pkill` (note: `python` deliberately absent). -/
def pkillAllowedProcesses : List String :=
  ["node", "npm", "npx", "vite", "next", "pnpm", "uvicorn", "java"]

/-- Python `str.split()` with no argument: split on whitespace runs,
discarding leading/trailing whitespace. -/
def pySplitWords (s : String) : List String :=
  ((s.toList.splitOnP pyWS).map String.mk).filter (fun w => w ≠ "")

/-- `validate_pkill_command`.  The `Except` error models the uncaught
`IndexError` raised by `target.split()[0]` when the last non-flag argument is
whitespace-only (e.g. `pkill ' '`): `str.split()` then returns `[]`. -/
def validate_pkill_command (cmd : String) : Except String (Bool × String) :=
  match shlexSplit cmd with
  | none => .ok (false, "Could not parse pkill command")
  | some [] => .ok (false, "Empty pkill command")
  | some (_ :: rest) =>
    let args := rest.filter (fun t => !strStartsWith t "-")
    match args.getLast? with
    | none => .ok (false, "pkill requires a process name")
    | some target0 =>
      let decideTarget := fun (target : String) =>
        if target ∈ pkillAllowedProcesses then (true, "")
        else (false, "pkill only allowed for dev processes: " ++ pySetRepr pkillAllowedProcesses)
      if strContains target0 " " then
        match pySplitWords target0 with
        | [] => .error "IndexError: list index out of range"
        | w :: _ => .ok (decideTarget w)
      else .ok (decideTarget target0)

/-- Mode check of `validate_chmod_command`: the regex `^[ugoa]*\+x$`. -/
def chmodModeOk (m : String) : Bool :=
  m.toList.dropWhile (fun c => c = 'u' || c = 'g' || c = 'o' || c = 'a') = ['+', 'x']

/-- Argument walk of `validate_chmod_command`: any flag blocks; the first
non-flag token is the mode, the rest are files. -/
def chmodLoop : List String → Option String → List String → Bool × String
  | [], mode, files =>
    (match mode with
     | none => (false, "chmod requires a mode")
     | some m =>
       if files.isEmpty then (false, "chmod requires at least one file")
       else if chmodModeOk m then (true, "")
       else (false, "chmod only allowed with +x mode, got: " ++ m))
  | t :: ts, mode, files =>
    if strStartsWith t "-" then (false, "chmod flags are not allowed")
    else
      match mode with
      | none => chmodLoop ts (some t) files
      | some m => chmodLoop ts (some m) (files ++ [t])

/-- `validate_chmod_command`. -/
def validate_chmod_command (cmd : String) : Bool × String :=
  match shlexSplit cmd with
  | none => (false, "Could not parse chmod command")
  | some tokens =>
    if tokens.head? ≠ some "chmod" then (false, "Not a chmod command")
    else chmodLoop tokens.tail none []

/-- The dangerous literal/`endswith`/`startswith` patterns of
`validate_rm_command`. -/
def rmDangerousPatterns : List String :=
  ["/*", "../*", "/..", "/.", ".*", "**/", "~/*",
   "/home", "/etc", "/usr", "/var", "/bin", "/sbin", "/lib",
   "/boot", "/dev", "/proc", "/sys", "/root"]

/-- Split `rm` arguments into targets and detect a recursive flag. -/
def rmScan : List String → List String × Bool
  | [] => ([], false)
  | t :: ts =>
    let p := rmScan ts
    if strStartsWith t "-" then
      (p.1, (strHasChar t 'r' || strHasChar t 'R' || t = "--recursive") || p.2)
    else (t :: p.1, p.2)

/-- First pass of `validate_rm_command` over targets: dangerous patterns,
then the recursive hidden-file check. -/
def rmFirstLoop (isRec : Bool) : List String → Option String
  | [] => none
  | t :: ts =>
    if rmDangerousPatterns.any (fun p => t = p || strEndsWith t p || strStartsWith t p) then
      some ("rm blocked: dangerous pattern '" ++ t ++ "'")
    else if isRec && (strStartsWith t ".*" || strContains t "/..") then
      some ("rm blocked: recursive deletion of hidden files/directories not allowed: " ++ t)
    else rmFirstLoop isRec ts

/-- Second pass: recursive deletion with a wildcard target. -/
def rmWildLoop : List String → Option String
  | [] => none
  | t :: ts =>
    if strHasChar t '*' then
      some ("rm blocked: recursive deletion with wildcard not allowed: " ++ t)
    else rmWildLoop ts

/-- `validate_rm_command`. -/
def validate_rm_command (cmd : String) : Bool × String :=
  match shlexSplit cmd with
  | none => (false, "Could not parse rm command")
  | some tokens =>
    if tokens.head? ≠ some "rm" then (false, "Not an rm command")
    else
      let scan := rmScan tokens.tail
      if scan.1.isEmpty then (false, "rm requires at least one target")
      else
        match rmFirstLoop scan.2 scan.1 with
        | some r => (false, r)
        | none =>
          if scan.2 then
            match rmWildLoop scan.1 with
            | some r => (false, r)
            | none => (true, "")
          else (true, "")

/-- Target walk of `validate_rmdir_command`. -/
def rmdirLoop : List String → Option String
  | [] => none
  | t :: ts =>
    if t ∈ (["/", "/*", "../*", "~", "~/*", "."] : List String) then
      some ("rmdir blocked: dangerous pattern '" ++ t ++ "'")
    else if strContains t ".." && !strStartsWith t "./" then
      some ("rmdir blocked: path traversal not allowed: " ++ t)
    else rmdirLoop ts

/-- `validate_rmdir_command`. -/
def validate_rmdir_command (cmd : String) : Bool × String :=
  match shlexSplit cmd with
  | none => (false, "Could not parse rmdir command")
  | some tokens =>
    if tokens.head? ≠ some "rmdir" then (false, "Not an rmdir command")
    else
      let targets := tokens.tail.filter (fun t => !strStartsWith t "-")
      if targets.isEmpty then (false, "rmdir requires at least one target")
      else
        match rmdirLoop targets with
        | some r => (false, r)
        | none => (true, "")

/-- The allowed signal names/numbers of `validate_kill_command`. -/
def killAllowedSignals : List String :=
  ["TERM", "KILL", "INT", "HUP", "USR1", "USR2", "QUIT", "STOP", "CONT",
   "15", "9", "2", "1", "10", "12", "3", "19", "18",
   "SIGTERM", "SIGKILL", "SIGINT", "SIGHUP", "SIGUSR1", "SIGUSR2"]

/-- Result of the flag/PID scan of `validate_kill_command`: `early` is the
immediate `return True` on `-l`/`--list`. -/
inductive KillScan
  | early
  | done (sig : Option String) (pids : List String)
deriving DecidableEq, Repr

/-- The token scan of `validate_kill_command`: flags set the signal (`-s`
consumes the following token; otherwise the text after `-`, uppercased, if
nonempty); non-flag tokens are PIDs.  A final `-s` with nothing after it
falls through to the generic flag branch (`token[1:].upper()`), after which
the scan ends. -/
def killScan : List String → Option String → List String → KillScan
  | [], sig, pids => .done sig pids
  | t :: ts, sig, pids =>
    if strStartsWith t "-" then
      if t = "-l" || t = "--list" then .early
      else if t = "-s" then
        match ts with
        | next :: ts' => killScan ts' (some (pyUpper next)) pids
        | [] => .done (some (pyUpper (strDrop t 1))) pids
      else
        let sg := pyUpper (strDrop t 1)
        killScan ts (if sg = "" then sig else some sg) pids
    else killScan ts sig (pids ++ [t])

/-- PID walk of `validate_kill_command`: job specs (`%...`) skipped,
non-numeric tolerated, PID 1 / negative / below 100 blocked. -/
def killPidLoop : List String → Bool × String
  | [] => (true, "")
  | p :: ps =>
    if strStartsWith p "%" then killPidLoop ps
    else
      match pyInt p with
      | some n =>
        if n = 1 then (false, "kill blocked: cannot kill PID 1 (init)")
        else if n < 0 then
          (false, "kill blocked: negative PID (process group) not allowed: " ++ p)
        else if n < 100 then
          (false, "kill blocked: system process PID not allowed: " ++ p)
        else killPidLoop ps
      | none => killPidLoop ps

/-- `validate_kill_command`. -/
def validate_kill_command (cmd : String) : Bool × String :=
  match shlexSplit cmd with
  | none => (false, "Could not parse kill command")
  | some tokens =>
    if tokens.head? ≠ some "kill" then (false, "Not a kill command")
    else
      match killScan tokens.tail none [] with
      | .early => (true, "")
      | .done sig pids =>
        if pids.isEmpty then (false, "kill requires at least one PID")
        else
          match sig with
          | some s =>
            if s ≠ "" && s ∉ killAllowedSignals then
              (false, "kill blocked: signal '" ++ s ++ "' not in allowed signals: "
                ++ pySetRepr killAllowedSignals)
            else killPidLoop pids
          | none => killPidLoop pids

/-- Volume-mount scan of `validate_docker_command`. -/
def dockerVolumeLoop : List String → Option String
  | [] => none
  | t :: ts =>
    if (t = "-v" || t = "--volume") && !ts.isEmpty then
      let spec := ts.headD ""
      if strContains spec ":" then
        let host := (strSplitOnChar spec ':').headD ""
        if host ∈ (["/", "/home", "/etc", "/usr", "/var"] : List String) then
          some ("Docker volume mount of system directory not allowed: " ++ host)
        else dockerVolumeLoop ts
      else dockerVolumeLoop ts
    else dockerVolumeLoop ts

/-- `validate_docker_command`. -/
def validate_docker_command (cmd : String) : Bool × String :=
  match shlexSplit cmd with
  | none => (false, "Could not parse docker command")
  | some tokens =>
    if tokens.head? ≠ some "docker" then (false, "Not a docker command")
    else
      match dockerVolumeLoop tokens with
      | some r => (false, r)
      | none => (true, "")

/-- Allowed read-only `systemctl` operations. -/
def systemctlAllowedOperations : List String :=
  ["status", "show", "list-units", "list-unit-files", "is-active", "is-enabled"]

/-- `validate_systemctl_command`.  (A missing operation renders as `None` in
the reason, like the Python f-string.) -/
def validate_systemctl_command (cmd : String) : Bool × String :=
  match shlexSplit cmd with
  | none => (false, "Could not parse systemctl command")
  | some tokens =>
    if tokens.head? ≠ some "systemctl" then (false, "Not a systemctl command")
    else
      match (tokens.tail.filter (fun t => !strStartsWith t "-")).head? with
      | some op =>
        if op ∈ systemctlAllowedOperations then (true, "")
        else (false, "systemctl operation '" ++ op ++ "' not allowed (only "
          ++ pySetRepr systemctlAllowedOperations ++ " permitted)")
      | none =>
        (false, "systemctl operation 'None' not allowed (only "
          ++ pySetRepr systemctlAllowedOperations ++ " permitted)")

/-- `validate_init_script`. -/
def validate_init_script (cmd : String) : Bool × String :=
  match shlexSplit cmd with
  | none => (false, "Could not parse environment setup script command")
  | some [] => (false, "Empty command")
  | some (script :: _) =>
    if script = "./start.sh" || strEndsWith script "/start.sh"
        || script = "./restart.sh" || strEndsWith script "/restart.sh"
        || script = "./stop.sh" || strEndsWith script "/stop.sh" then
      (true, "")
    else (false, "Only ./start.sh, ./restart.sh, ./stop.sh is allowed, got: " ++ script)

/-! ## Filesystem abstraction

`os.path.expanduser` and `pathlib.Path.resolve` are the only two points where
the source touches the operating system.  They are abstracted as a record of
pure functions; `resolve` returns `Except`, the error modelling an
`OSError`/`ValueError` raised during resolution. -/

structure FS where
  expanduser : String → String
  resolve : String → Except String String

/-- String form of `pathlib.PurePosixPath(s)`: collapses `//` and `.`
segments (not `..`). -/
def posixPathStr (s : String) : String :=
  let comps := (strSplitOnChar s '/').filter (fun c => c ≠ "" && c ≠ ".")
  if strStartsWith s "/" then "/" ++ strIntercalate "/" comps
  else if comps.isEmpty then "." else strIntercalate "/" comps

/-- `pathlib` `parts` of a path string (resolved paths contain no `.`/empty
segments). -/
def pathParts (s : String) : List String :=
  (if strStartsWith s "/" then ["/"] else []) ++ (strSplitOnChar s '/').filter (fun c => c ≠ "")

/-- Success of `p.relative_to(root)`: `root`'s parts are a prefix of `p`'s. -/
def isDescendantOf (p root : String) : Bool :=
  (pathParts root).isPrefixOf (pathParts p)

/-- The string handed to `Path.resolve` for a candidate path: home expansion,
then (for relative paths) interpretation against the project directory. -/
def resolveInputStr (fs : FS) (projectDir path : String) : String :=
  let expanded := fs.expanduser path
  if strStartsWith expanded "/" then posixPathStr expanded
  else posixPathStr (projectDir ++ "/" ++ expanded)

/-- `validate_path_within_project(path, project_dir, operation, allow_tmp)`. -/
def validate_path_within_project (fs : FS) (path : String) (projectDir : String)
    (operation : String) (allowTmp : Bool) : Bool × String :=
  if path = "" then (false, "Invalid path type: <class 'str'>")
  else
    match fs.resolve (posixPathStr projectDir) with
    | .error e => (false, "Cannot validate path '" ++ path ++ "': " ++ e)
    | .ok projectResolved =>
      match fs.resolve (resolveInputStr fs projectDir path) with
      | .error e => (false, "Cannot validate path '" ++ path ++ "': " ++ e)
      | .ok pathResolved =>
        let projCheck : Bool × String :=
          if isDescendantOf pathResolved projectResolved then (true, "")
          else
            (false, "Path escapes project directory: '" ++ path ++ "' resolves to '"
              ++ pathResolved ++ "' which is outside '" ++ projectResolved ++ "'. "
              ++ operation ++ " denied for security.")
        if allowTmp then
          match fs.resolve "/tmp" with
          | .error e => (false, "Cannot validate path '" ++ path ++ "': " ++ e)
          | .ok tmpResolved =>
            if isDescendantOf pathResolved tmpResolved then (true, "") else projCheck
        else projCheck

/-- Sensitive-directory walk of `validate_cp_source_path`.  (The source
iterates a Python `set`; the blocked/allowed outcome is order-independent,
and the embedding walks the set in source order.) -/
def cpSensitiveLoop (fs : FS) (sourcePath expanded : String) : List String → Option String
  | [] => none
  | sens :: rest =>
    let es := fs.expanduser sens
    if expanded = es then
      some ("cp blocked: cannot copy from sensitive path '" ++ sourcePath ++ "'")
    else if strStartsWith expanded (es ++ "/") then
      some ("cp blocked: cannot copy from sensitive directory '" ++ sens ++ "'")
    else if sens = "credentials" || sens = "secrets" || sens = ".env" then
      let pl := pyLower sourcePath
      if strContains pl sens && !strStartsWith pl "./" then
        if strStartsWith sourcePath "/" || strStartsWith sourcePath "~" then
          some ("cp blocked: cannot copy sensitive file pattern '" ++ sourcePath ++ "'")
        else cpSensitiveLoop fs sourcePath expanded rest
      else cpSensitiveLoop fs sourcePath expanded rest
    else cpSensitiveLoop fs sourcePath expanded rest

/-- `validate_cp_source_path(source_path)`. -/
def validate_cp_source_path (fs : FS) (sourcePath : String) : Bool × String :=
  if sourcePath = "" then (false, "Empty source path")
  else
    match cpSensitiveLoop fs sourcePath (fs.expanduser sourcePath) SENSITIVE_SYSTEM_DIRECTORIES with
    | some r => (false, r)
    | none => (true, "")

/-! ## `extract_file_paths_from_command` -/

def fileOperationCommands : List String :=
  ["cat", "cp", "mv", "rm", "rmdir", "mkdir", "chmod",
   "touch", "ls", "find", "head", "tail", "tee", "stat",
   "grep", "awk", "wc", "ln"]

def outputCommandNames : List String := ["curl", "wget", "unzip", "jar", "git"]

def outputCommandFlags (cmd : String) : List String :=
  if cmd = "curl" then ["-o", "--output", "-O"]
  else if cmd = "wget" then ["-O", "--output-document"]
  else if cmd = "unzip" then ["-d"]
  else if cmd = "jar" then ["-C"]
  else if cmd = "git" then ["clone", "--work-tree", "--git-dir"]
  else []

def scriptCommands : List String := ["python", "python3", "node", "java", "bash", "sh"]

/-- The positional check of the output-flag branch (`unzip`/`jar`
path-looking arguments). -/
def outputPositional (cmd t : String) : List String :=
  if !strStartsWith t "-" && (cmd = "unzip" || cmd = "jar")
      && (strContains t "/" || strStartsWith t ".") then [t] else []

/-- Path scan for commands with output flags (`curl -o`, `unzip -d`, ...):
the token after an output flag is a path; an output flag as the last token
falls through to the positional check. -/
def outputLoop (cmd : String) (flags : List String) : List String → List String
  | [] => []
  | t :: ts =>
    if t ∈ flags then
      match ts with
      | next :: ts' => next :: outputLoop cmd flags ts'
      | [] => outputPositional cmd t
    else outputPositional cmd t ++ outputLoop cmd flags ts

/-- Path scan of the dedicated `git` branch.  (Dead code in the source:
`git` is also a key of `output_commands`, so the earlier branch shadows this
one; it is embedded all the same.) -/
def gitLoop : List String → List String
  | [] => []
  | "clone" :: _ :: dest :: ts' =>
    (if !strStartsWith dest "-" then [dest] else []) ++ gitLoop ts'
  | t :: ts =>
    if t = "--work-tree" || t = "--git-dir" then
      match ts with
      | next :: ts' => next :: gitLoop ts'
      | [] => []
    else gitLoop ts

/-- Path scan for interpreter-style commands: only the first non-flag token,
and only if it looks like a path. -/
def scriptFirstNonFlag : List String → List String
  | [] => []
  | t :: ts =>
    if !strStartsWith t "-" then
      (if strContains t "/" || strStartsWith t "." || strStartsWith t "~" then [t] else [])
    else scriptFirstNonFlag ts

/-- A token that "looks like a file path" for plain file-operation commands. -/
def isPathToken (cmd t : String) : Bool :=
  strStartsWith t "/" || strStartsWith t "~/" || strStartsWith t "./" || strStartsWith t "../"
  || strContains t "/"
  || (!strStartsWith t "-"
      && (cmd = "rm" || cmd = "rmdir" || cmd = "mkdir" || cmd = "chmod"
          || cmd = "touch" || cmd = "ln"))

/-- Path scan for plain file-operation commands; the Boolean flag skips the
token after a redirection operator. -/
def fileOpLoop (cmd : String) : List String → Bool → List String
  | [], _ => []
  | t :: ts, skip =>
    if skip then fileOpLoop cmd ts false
    else if strStartsWith t "-" then fileOpLoop cmd ts false
    else if t = ">" || t = ">>" || t = "<" || t = "|" || t = "2>" || t = "&>" || t = "2>&1" then
      fileOpLoop cmd ts true
    else (if isPathToken cmd t then [t] else []) ++ fileOpLoop cmd ts false

/-- Targets of `>`/`>>` redirections anywhere in the token list. -/
def redirectTargets : List String → List String
  | [] => []
  | t :: ts =>
    (if (t = ">" || t = ">>") && !ts.isEmpty then [ts.headD ""] else [])
    ++ redirectTargets ts

/-- `extract_file_paths_from_command(command_string)`. -/
def extract_file_paths_from_command (command : String) : List String :=
  match shlexSplit command with
  | none => []
  | some [] => []
  | some (t0 :: rest) =>
    let cmd := pyBasename t0
    let branch :=
      if cmd ∈ outputCommandNames then outputLoop cmd (outputCommandFlags cmd) rest
      else if cmd = "git" then gitLoop rest
      else if cmd ∈ scriptCommands then scriptFirstNonFlag rest
      else if cmd ∈ fileOperationCommands then fileOpLoop cmd rest false
      else []
    branch ++ redirectTargets (t0 :: rest)

/-! ## Decisions and the hook orchestrator -/

/-- The hook's terminal outcome: `{}` (allow) or
`{"decision": "block", "reason": ...}`. -/
inductive Decision
  | allow
  | block (reason : String)
deriving DecidableEq, Repr

/-- Dispatch of the per-command extra validators over the segment containing
the command (whole command string as fallback).  `Except` propagates the one
uncaught exception (`validate_pkill_command`); `.ok (some r)` is a block
reason; `.ok none` passes. -/
def extraValidationReason (cmd : String) (segments : List String)
    (command : String) : Except String (Option String) :=
  let seg0 := get_command_for_validation cmd segments
  let cmdSegment := if seg0 = "" then command else seg0
  if cmd = "pkill" then
    match validate_pkill_command cmdSegment with
    | .error e => .error e
    | .ok p => .ok (toReason p)
  else if cmd = "chmod" then .ok (toReason (validate_chmod_command cmdSegment))
  else if cmd = "start.sh" || cmd = "restart.sh" || cmd = "stop.sh" then
    .ok (toReason (validate_init_script cmdSegment))
  else if cmd = "docker" then .ok (toReason (validate_docker_command cmdSegment))
  else if cmd = "systemctl" then .ok (toReason (validate_systemctl_command cmdSegment))
  else if cmd = "rm" then .ok (toReason (validate_rm_command cmdSegment))
  else if cmd = "rmdir" then .ok (toReason (validate_rmdir_command cmdSegment))
  else if cmd = "kill" then .ok (toReason (validate_kill_command cmdSegment))
  else .ok none

/-- The allowlist-and-validators loop of the hook: the first command not in
`ALLOWED_COMMANDS` blocks naming it; an allowed command needing extra
validation may block with its validator's reason. -/
def allowlistAndValidate (segments : List String) (command : String) :
    List String → Except String (Option Decision)
  | [] => .ok none
  | cmd :: rest =>
    if cmd ∉ ALLOWED_COMMANDS then
      .ok (some (.block ("Command '" ++ cmd ++ "' is not in the allowed commands list.")))
    else if cmd ∈ COMMANDS_NEEDING_EXTRA_VALIDATION then
      match extraValidationReason cmd segments command with
      | .error e => .error e
      | .ok (some r) => .ok (some (.block r))
      | .ok none => allowlistAndValidate segments command rest
    else allowlistAndValidate segments command rest

/-- Generic path-containment loop (all commands except `cp`/`mv`): first
failing candidate blocks. -/
def genericPathLoop (fs : FS) (projectDir command : String) : List String → Decision
  | [] => .allow
  | p :: ps =>
    let v := validate_path_within_project fs p projectDir "File operation" true
    if v.1 then genericPathLoop fs projectDir command ps
    else .block ("Bash command blocked: " ++ v.2 ++ "\nCommand: " ++ command)

/-- `mv` source loop: every source must resolve inside project or `/tmp`. -/
def mvSourceLoop (fs : FS) (projectDir command : String) : List String → Decision
  | [] => .allow
  | src :: rest =>
    let v := validate_path_within_project fs src projectDir "Source path (mv)" true
    if v.1 then mvSourceLoop fs projectDir command rest
    else .block ("Bash command blocked: mv source " ++ v.2 ++ "\nCommand: " ++ command)

/-- `cp` source loop: project/`/tmp` containment first; only on failure the
sensitive-path check. -/
def cpSourceLoop (fs : FS) (projectDir command : String) : List String → Decision
  | [] => .allow
  | src :: rest =>
    let v := validate_path_within_project fs src projectDir "cp source path" true
    if v.1 then cpSourceLoop fs projectDir command rest
    else
      let w := validate_cp_source_path fs src
      if w.1 then cpSourceLoop fs projectDir command rest
      else .block ("Bash command blocked: " ++ w.2 ++ "\nCommand: " ++ command)

/-- The non-flag, non-redirection tokens after the command word: for `cp`/`mv`
the last is the destination, the rest are sources. -/
def cpMvPaths (tokens : List String) : List String :=
  (tokens.drop 1).filter
    (fun t => !strStartsWith t "-" && !(t = ">" || t = ">>" || t = "<" || t = "|"))

/-- The dedicated `cp`/`mv` path check of the hook.  A `shlex` failure here
falls through to `return {}` (the general loop is in the `else` arm of the
`cp`/`mv` test), as does a token list with fewer than two path arguments. -/
def cpMvCheck (fs : FS) (projectDir command cmdBase : String) : Decision :=
  match shlexSplit command with
  | none => .allow
  | some tokens =>
    let paths := cpMvPaths tokens
    if 2 ≤ paths.length then
      let dest := paths.getLastD ""
      let sources := paths.dropLast
      let v := validate_path_within_project fs dest projectDir "Destination path" true
      if !v.1 then .block ("Bash command blocked: " ++ v.2 ++ "\nCommand: " ++ command)
      else if cmdBase = "mv" then mvSourceLoop fs projectDir command sources
      else if cmdBase = "cp" then cpSourceLoop fs projectDir command sources
      else .allow
    else .allow

/-- The path-validation stage of the hook (runs only when a project directory
is supplied). -/
def pathStage (fs : FS) (projectDir command : String) (commands : List String) : Decision :=
  let filePaths := extract_file_paths_from_command command
  let cmdBase := pyBasename (commands.headD "")
  if cmdBase = "cp" || cmdBase = "mv" then cpMvCheck fs projectDir command cmdBase
  else genericPathLoop fs projectDir command filePaths

/-- `bash_security_hook(input_data, tool_use_id, context)`.

`toolName` and `command` model `input_data["tool_name"]` and
`input_data["tool_input"]["command"]` (a missing command reads as `""`);
`projectDir` models `context["project_dir"]`.  The `Except` error is an
exception escaping the hook (the source has no handler around the
validator dispatch). -/
def bash_security_hook (fs : FS) (toolName command : String)
    (projectDir : Option String) : Except String Decision :=
  if toolName ≠ "Bash" then .ok .allow
  else if command = "" then .ok .allow
  else
    let commands := extract_commands command ++ extract_substitution_commands command
    if commands.isEmpty then
      .ok (.block ("Could not parse command for security validation: " ++ command))
    else
      let segments := split_command_segments command
      match allowlistAndValidate segments command commands with
      | .error e => .error e
      | .ok (some d) => .ok d
      | .ok none =>
        match projectDir with
        | none => .ok .allow
        | some pd => .ok (pathStage fs pd command commands)

/-! ## A concrete filesystem instance

A lexical, symlink-free filesystem with home directory `/root`: `resolve`
normalizes `.`/`..` segments and never fails.  Used for all concrete
evaluations. -/

/-- Lexical normalization of path components (`..` pops, root-bounded). -/
def normCompsGo : List String → List String → List String
  | acc, [] => acc.reverse
  | acc, c :: cs =>
    if c = "" || c = "." then normCompsGo acc cs
    else if c = ".." then normCompsGo acc.tail cs
    else normCompsGo (c :: acc) cs

def fsDefault : FS where
  expanduser := fun p =>
    if p = "~" then "/root"
    else if strStartsWith p "~/" then "/root" ++ strDrop p 1
    else p
  resolve := fun s =>
    let s' := if strStartsWith s "/" then s else "/" ++ s
    .ok ("/" ++ strIntercalate "/" (normCompsGo [] (strSplitOnChar s' '/')))

/-! ## Claim C1 -/

/-- C1: the claim states that every command name inside a `$(...)`, backtick
or process substitution, at any nesting depth, is extracted and checked like
a top-level name, with a block whenever such a name is not in the allowlist.
This holds for plainly nested substitutions (first two conjuncts: a name
three levels deep is extracted and blocked), but fails on
`echo "$(evil \" )"`: bash executes `evil` inside the substitution, yet the
extractor's quote tracker takes the backslash-escaped quote for a quote
toggle, never sees the closing parenthesis, extracts nothing, and the hook
allows the command (last two conjuncts). -/
theorem C1_substitution_extraction :
    bash_security_hook fsDefault "Bash" "echo $(echo $(echo $(evil_cmd)))" none
      = .ok (.block "Command 'evil_cmd' is not in the allowed commands list.")
    ∧ extract_substitution_commands "echo $(echo $(echo $(evil_cmd)))"
      = ["echo", "echo", "evil_cmd"]
    ∧ bash_security_hook fsDefault "Bash" "echo \"$(evil \\\" )\"" none = .ok .allow
    ∧ extract_substitution_commands "echo \"$(evil \\\" )\"" = [] :=
  ⟨rfl, rfl, rfl, rfl⟩

/-! ## Claim C2 -/

/-- C2: the claim states that every segment of a `;`/`&&`/`||` compound is
checked, with the first name missing from the allowlist blocking by name.
That holds for `echo hi && unknown_cmd` (second conjunct), but the
tokenizer only recognizes `&&` as a separate word: in `echo hi&&unknown_cmd`
(no spaces — still a compound command to the shell, as the source's own
segmenter shows, last conjunct) the chain collapses into the argument token
`hi&&unknown_cmd`, `unknown_cmd` is never extracted (third conjunct), and the
hook allows the command (first conjunct). -/
theorem C2_unspaced_chain_bypass :
    bash_security_hook fsDefault "Bash" "echo hi&&unknown_cmd" none = .ok .allow
    ∧ bash_security_hook fsDefault "Bash" "echo hi && unknown_cmd" none
      = .ok (.block "Command 'unknown_cmd' is not in the allowed commands list.")
    ∧ extract_commands "echo hi&&unknown_cmd" = ["echo"]
    ∧ split_command_segments "echo hi&&unknown_cmd" = ["echo hi", "unknown_cmd"] :=
  ⟨rfl, rfl, rfl, rfl⟩

/-! ## Claim C5 -/

/-- C5: the claim states that unterminated quoting always blocks, with no
partial-parse fallback.  `extract_commands` indeed fails closed (returning
`[]`, second conjunct, since `shlex` raises, first conjunct), and when
nothing else is extracted the hook blocks (last conjunct).  But the hook
appends substitution-extracted names before testing emptiness: for
`echo "$(ls)` — unterminated double quote — the substitution scanner still
recovers `ls`, the command list is non-empty, every name is allowed, and the
hook returns allow (third conjunct). -/
theorem C5_unterminated_quote_allowed :
    shlexSplit "echo \"$(ls)" = none
    ∧ extract_commands "echo \"$(ls)" = []
    ∧ bash_security_hook fsDefault "Bash" "echo \"$(ls)" none = .ok .allow
    ∧ bash_security_hook fsDefault "Bash" "echo \"" none
      = .ok (.block "Could not parse command for security validation: echo \"") :=
  ⟨rfl, rfl, rfl, rfl⟩

/-! ## Claim C6 -/

/-- C6: the claim states that every hook call returns exactly one Decision
and no exception escapes.  On `pkill ' '` the last non-flag argument is the
whitespace-only token `' '`; it contains a space, so `validate_pkill_command`
evaluates `target.split()[0]`, and `' '.split()` is the empty list — the
resulting `IndexError` propagates out of `bash_security_hook`, which has no
handler around the validator dispatch. -/
theorem C6_pkill_exception_escape :
    bash_security_hook fsDefault "Bash" "pkill ' '" none
      = .error "IndexError: list index out of range"
    ∧ validate_pkill_command "pkill ' '"
      = .error "IndexError: list index out of range" :=
  ⟨rfl, rfl⟩

/-! ## Claim C7 -/

/-- Any PID entry that is numeric and below 100 (PID 1 and negative PIDs
included) makes the PID walk reject. -/
lemma killPidLoop_false (ps : List String) :
    ∀ p n, p ∈ ps → strStartsWith p "%" = false → pyInt p = some n → n < 100 →
    (killPidLoop ps).1 = false := by
  induction ps with
  | nil => intro p n hp _ _ _; cases hp
  | cons q qs ih =>
    intro p n hp hpc hn hlt
    rcases List.mem_cons.mp hp with hp | hp
    · subst hp
      simp only [killPidLoop, hpc, Bool.false_eq_true, if_false, hn]
      by_cases h1 : n = 1
      · simp [h1]
      · by_cases h2 : n < 0
        · simp [h1, h2]
        · simp [h1, h2, hlt]
    · simp only [killPidLoop]
      by_cases hq : strStartsWith q "%" = true
      · simpa [hq] using ih p n hp hpc hn hlt
      · simp only [Bool.not_eq_true] at hq
        simp only [hq, Bool.false_eq_true, if_false]
        cases hq2 : pyInt q with
        | none => exact ih p n hp hpc hn hlt
        | some m =>
          by_cases h1 : m = 1
          · simp [h1]
          · by_cases h2 : m < 0
            · simp [h1, h2]
            · by_cases h3 : m < 100
              · simp [h1, h2, h3]
              · simpa [h1, h2, h3] using ih p n hp hpc hn hlt

/-- If every PID entry is a job spec, non-numeric, or numeric at least 100,
the PID walk accepts. -/
lemma killPidLoop_true (ps : List String) :
    (∀ p ∈ ps, strStartsWith p "%" = true ∨ pyInt p = none
      ∨ ∃ n, pyInt p = some n ∧ 100 ≤ n) →
    killPidLoop ps = (true, "") := by
  induction ps with
  | nil => intro _; rfl
  | cons q qs ih =>
    intro h
    have hq := h q (List.mem_cons_self q qs)
    have hrest : ∀ p ∈ qs, strStartsWith p "%" = true ∨ pyInt p = none
        ∨ ∃ n, pyInt p = some n ∧ 100 ≤ n :=
      fun p hp => h p (List.mem_cons_of_mem q hp)
    rcases hq with hq | hq | ⟨n, hn, h100⟩
    · simpa [killPidLoop, hq] using ih hrest
    · by_cases hq1 : strStartsWith q "%" = true
      · simpa [killPidLoop, hq1] using ih hrest
      · simp only [Bool.not_eq_true] at hq1
        simpa [killPidLoop, hq1, hq] using ih hrest
    · by_cases hq1 : strStartsWith q "%" = true
      · simpa [killPidLoop, hq1] using ih hrest
      · simp only [Bool.not_eq_true] at hq1
        have h1 : ¬(n = 1) := by omega
        have h2 : ¬(n < 0) := by omega
        have h3 : ¬(n < 100) := by omega
        simpa [killPidLoop, hq1, hn, h1, h2, h3] using ih hrest

/-- C7: the three concrete behaviours of the claim at the hook level
(`kill -9 1` blocks on PID 1, `kill -TERM 5000` is allowed, `kill -9 50`
blocks on PID below 100); then, universally over every `kill` invocation the
scanner can parse: any numeric PID equal to 1, negative, or below 100 makes
the validator reject; a specified signal outside the allowed set makes it
reject; and with an allowed (or absent) signal and only job-spec,
non-numeric, or large-enough PIDs — non-numeric targets tolerated — it
accepts. -/
theorem C7_kill_validation :
    (bash_security_hook fsDefault "Bash" "kill -9 1" none
       = .ok (.block "kill blocked: cannot kill PID 1 (init)")
     ∧ bash_security_hook fsDefault "Bash" "kill -TERM 5000" none = .ok .allow
     ∧ bash_security_hook fsDefault "Bash" "kill -9 50" none
       = .ok (.block "kill blocked: system process PID not allowed: 50"))
    ∧ (∀ cmd tokens sig pids p n, shlexSplit cmd = some tokens →
        tokens.head? = some "kill" → killScan tokens.tail none [] = .done sig pids →
        p ∈ pids → strStartsWith p "%" = false → pyInt p = some n →
        (n = 1 ∨ n < 0 ∨ n < 100) → (validate_kill_command cmd).1 = false)
    ∧ (∀ cmd tokens sig pids s, shlexSplit cmd = some tokens →
        tokens.head? = some "kill" → killScan tokens.tail none [] = .done sig pids →
        sig = some s → s ≠ "" → s ∉ killAllowedSignals →
        (validate_kill_command cmd).1 = false)
    ∧ (∀ cmd tokens sig pids, shlexSplit cmd = some tokens →
        tokens.head? = some "kill" → killScan tokens.tail none [] = .done sig pids →
        pids ≠ [] →
        (∀ s, sig = some s → s = "" ∨ s ∈ killAllowedSignals) →
        (∀ p ∈ pids, strStartsWith p "%" = true ∨ pyInt p = none
          ∨ ∃ n, pyInt p = some n ∧ 100 ≤ n) →
        validate_kill_command cmd = (true, "")) := by
  refine ⟨⟨rfl, rfl, rfl⟩, ?_, ?_, ?_⟩
  · intro cmd tokens sig pids p n htok hhead hscan hp hpc hn hbad
    have hpe : pids.isEmpty = false := by
      cases pids with
      | nil => cases hp
      | cons a as => rfl
    have hlt : n < 100 := by omega
    have hloop := killPidLoop_false pids p n hp hpc hn hlt
    simp only [validate_kill_command, htok, hhead, ne_eq, not_true_eq_false, if_false, hscan, hpe,
      Bool.false_eq_true]
    cases sig with
    | none => simpa using hloop
    | some s =>
      by_cases hs : s ≠ "" ∧ s ∉ killAllowedSignals
      · simp [hs.1, hs.2]
      · rcases Decidable.not_and_iff_or_not.mp hs with hs | hs <;> simpa [hs] using hloop
  · intro cmd tokens sig pids s htok hhead hscan hsig hs0 hsmem
    subst hsig
    simp only [validate_kill_command, htok, hhead, ne_eq, not_true_eq_false, if_false, hscan]
    by_cases hpe : pids.isEmpty
    · simp [hpe]
    · simp [hpe, hs0, hsmem]
  · intro cmd tokens sig pids htok hhead hscan hpids hsig hgood
    have hpe : pids.isEmpty = false := by
      cases pids with
      | nil => exact absurd rfl hpids
      | cons a as => rfl
    have hloop := killPidLoop_true pids hgood
    simp only [validate_kill_command, htok, hhead, ne_eq, not_true_eq_false, if_false, hscan, hpe,
      Bool.false_eq_true]
    cases sig with
    | none => simpa using hloop
    | some s =>
      rcases hsig s rfl with hs | hs
      · simp [hs, hloop]
      · simp [hs, hloop]

/-- Witness for C7: the universal parts at concrete kill invocations —
`kill 99` has the numeric PID 99 below 100 and is rejected, `kill -s KILL x`
(non-numeric target, tolerated) is accepted, and `kill -WINCH 5000` carries a
signal outside the allowed set and is rejected. -/
theorem C7_witness :
    (validate_kill_command "kill 99").1 = false
    ∧ validate_kill_command "kill -s KILL x" = (true, "")
    ∧ (validate_kill_command "kill -WINCH 5000").1 = false := by
  obtain ⟨-, hblock, hsig, htol⟩ := C7_kill_validation
  refine ⟨?_, ?_, ?_⟩
  · exact hblock "kill 99" ["kill", "99"] none ["99"] "99" 99 rfl rfl rfl
      (by decide) rfl rfl (by omega)
  · refine htol "kill -s KILL x" ["kill", "-s", "KILL", "x"] (some "KILL") ["x"] rfl rfl rfl
      (by decide) ?_ ?_
    · intro s hs
      cases hs
      right
      decide
    · intro p hp
      have hp' : p = "x" := by simpa using hp
      subst hp'
      right
      left
      rfl
  · exact hsig "kill -WINCH 5000" ["kill", "-WINCH", "5000"] (some "WINCH") ["5000"] "WINCH"
      rfl rfl rfl rfl (by decide) (by decide)

/-! ## Claim C8 -/

/-- A target matching a dangerous pattern (as literal, suffix or prefix)
makes the first `rm` target pass reject. -/
lemma rmFirstLoop_some (isRec : Bool) (ts : List String) :
    ∀ t, t ∈ ts →
    rmDangerousPatterns.any (fun p => t = p || strEndsWith t p || strStartsWith t p) = true →
    ∃ r, rmFirstLoop isRec ts = some r := by
  induction ts with
  | nil => intro t ht; cases ht
  | cons q qs ih =>
    intro t ht hd
    rcases List.mem_cons.mp ht with ht | ht
    · subst ht
      exact ⟨"rm blocked: dangerous pattern '" ++ t ++ "'", by simp [rmFirstLoop, hd]⟩
    · by_cases hq : rmDangerousPatterns.any
        (fun p => q = p || strEndsWith q p || strStartsWith q p) = true
      · exact ⟨"rm blocked: dangerous pattern '" ++ q ++ "'", by simp [rmFirstLoop, hq]⟩
      · simp only [Bool.not_eq_true] at hq
        by_cases hh : (isRec && (strStartsWith q ".*" || strContains q "/..")) = true
        · exact ⟨"rm blocked: recursive deletion of hidden files/directories not allowed: " ++ q,
            by simp [rmFirstLoop, hq, hh]⟩
        · simp only [Bool.not_eq_true] at hh
          obtain ⟨r, hr⟩ := ih t ht hd
          exact ⟨r, by simp [rmFirstLoop, hq, hh, hr]⟩

/-- A wildcard target makes the wildcard pass reject. -/
lemma rmWildLoop_some (ts : List String) :
    ∀ t, t ∈ ts → strHasChar t '*' = true → ∃ r, rmWildLoop ts = some r := by
  induction ts with
  | nil => intro t ht; cases ht
  | cons q qs ih =>
    intro t ht hw
    rcases List.mem_cons.mp ht with ht | ht
    · subst ht
      exact ⟨"rm blocked: recursive deletion with wildcard not allowed: " ++ t,
        by simp [rmWildLoop, hw]⟩
    · by_cases hq : strHasChar q '*' = true
      · exact ⟨"rm blocked: recursive deletion with wildcard not allowed: " ++ q,
          by simp [rmWildLoop, hq]⟩
      · simp only [Bool.not_eq_true] at hq
        obtain ⟨r, hr⟩ := ih t ht hw
        exact ⟨r, by simp [rmWildLoop, hq, hr]⟩

/-- C8: the two concrete behaviours of the claim at the hook level
(`rm -rf /*` blocks, `rm old.txt` with the path resolving inside the project
root is allowed); then, universally over every `rm` invocation the parser
accepts: no target rejects; a target equal to, ending with, or starting with
a dangerous pattern rejects; and a recursive flag combined with any
wildcard-containing target rejects. -/
theorem C8_rm_validation :
    (bash_security_hook fsDefault "Bash" "rm -rf /*" (some "/proj")
       = .ok (.block "rm blocked: dangerous pattern '/*'")
     ∧ bash_security_hook fsDefault "Bash" "rm old.txt" (some "/proj") = .ok .allow)
    ∧ (∀ cmd tokens, shlexSplit cmd = some tokens → tokens.head? = some "rm" →
        (rmScan tokens.tail).1 = [] → (validate_rm_command cmd).1 = false)
    ∧ (∀ cmd tokens t, shlexSplit cmd = some tokens → tokens.head? = some "rm" →
        t ∈ (rmScan tokens.tail).1 →
        (∃ p ∈ rmDangerousPatterns, t = p ∨ strEndsWith t p = true ∨ strStartsWith t p = true) →
        (validate_rm_command cmd).1 = false)
    ∧ (∀ cmd tokens t, shlexSplit cmd = some tokens → tokens.head? = some "rm" →
        (rmScan tokens.tail).2 = true → t ∈ (rmScan tokens.tail).1 →
        strHasChar t '*' = true →
        (validate_rm_command cmd).1 = false) := by
  refine ⟨⟨rfl, rfl⟩, ?_, ?_, ?_⟩
  · intro cmd tokens htok hhead hempty
    simp [validate_rm_command, htok, hhead, hempty]
  · intro cmd tokens t htok hhead ht hd
    have hd' : rmDangerousPatterns.any
        (fun p => t = p || strEndsWith t p || strStartsWith t p) = true := by
      rw [List.any_eq_true]
      obtain ⟨p, hp, hcase⟩ := hd
      exact ⟨p, hp, by rcases hcase with h | h | h <;> simp [h]⟩
    have hne : ((rmScan tokens.tail).1).isEmpty = false := by
      cases hsc : (rmScan tokens.tail).1 with
      | nil => rw [hsc] at ht; cases ht
      | cons a as => rfl
    obtain ⟨r, hr⟩ := rmFirstLoop_some (rmScan tokens.tail).2 (rmScan tokens.tail).1 t ht hd'
    simp [validate_rm_command, htok, hhead, hne, hr]
  · intro cmd tokens t htok hhead hrec ht hw
    have hne : ((rmScan tokens.tail).1).isEmpty = false := by
      cases hsc : (rmScan tokens.tail).1 with
      | nil => rw [hsc] at ht; cases ht
      | cons a as => rfl
    simp only [validate_rm_command, htok, hhead, ne_eq, not_true_eq_false, if_false, hne,
      Bool.false_eq_true]
    cases hfl : rmFirstLoop (rmScan tokens.tail).2 (rmScan tokens.tail).1 with
    | some r => simp
    | none =>
      obtain ⟨r, hr⟩ := rmWildLoop_some (rmScan tokens.tail).1 t ht hw
      simp [hrec, hr]

/-- Witness for C8: the universal parts at concrete rm invocations — no
target (`rm -f`), a dangerous-suffix target (`rm sub/..`), and a recursive
wildcard (`rm -r logs*`) all reject. -/
theorem C8_witness :
    (validate_rm_command "rm -f").1 = false
    ∧ (validate_rm_command "rm sub/..").1 = false
    ∧ (validate_rm_command "rm -r logs*").1 = false := by
  obtain ⟨-, hempty, hdanger, hwild⟩ := C8_rm_validation
  refine ⟨?_, ?_, ?_⟩
  · exact hempty "rm -f" ["rm", "-f"] rfl rfl rfl
  · exact hdanger "rm sub/.." ["rm", "sub/.."] "sub/.." rfl rfl (by decide)
      ⟨"/..", by decide, Or.inr (Or.inl (by decide))⟩
  · exact hwild "rm -r logs*" ["rm", "-r", "logs*"] "logs*" rfl rfl rfl (by decide) (by decide)

/-! ## Claims C3 and C4: reaching the path stage -/

/-- When the tool is Bash, the command is nonempty, extraction produced at
least one name, and the allowlist/validator loop passes, the hook's decision
is that of the path stage. -/
lemma hook_path_stage (fs : FS) (command pd : String)
    (hcmd : command ≠ "")
    (hne : extract_commands command ++ extract_substitution_commands command ≠ [])
    (hstage1 : allowlistAndValidate (split_command_segments command) command
        (extract_commands command ++ extract_substitution_commands command) = .ok none) :
    bash_security_hook fs "Bash" command (some pd)
      = .ok (pathStage fs pd command
          (extract_commands command ++ extract_substitution_commands command)) := by
  have hempty : (extract_commands command ++ extract_substitution_commands command).isEmpty
      = false := by
    cases h : extract_commands command ++ extract_substitution_commands command with
    | nil => exact absurd h hne
    | cons a as => rfl
  unfold bash_security_hook
  simp [hcmd, hempty, hstage1]

/-- The first candidate failing containment determines the outcome of the
generic path loop. -/
lemma genericPathLoop_first_block (fs : FS) (pd command : String) :
    ∀ ps : List String,
    (∃ p ∈ ps, (validate_path_within_project fs p pd "File operation" true).1 = false) →
    ∃ q ∈ ps, (validate_path_within_project fs q pd "File operation" true).1 = false
      ∧ genericPathLoop fs pd command ps
        = .block ("Bash command blocked: "
            ++ (validate_path_within_project fs q pd "File operation" true).2
            ++ "\nCommand: " ++ command) := by
  intro ps
  induction ps with
  | nil => rintro ⟨p, hp, -⟩; cases hp
  | cons q qs ih =>
    rintro ⟨p, hp, hfail⟩
    by_cases hq : (validate_path_within_project fs q pd "File operation" true).1 = true
    · have hp' : p ∈ qs := by
        rcases List.mem_cons.mp hp with h | h
        · subst h; rw [hq] at hfail; cases hfail
        · exact h
      obtain ⟨q', hq', hfail', hloop⟩ := ih ⟨p, hp', hfail⟩
      exact ⟨q', List.mem_cons_of_mem q hq', hfail',
        by simpa [genericPathLoop, hq] using hloop⟩
    · simp only [Bool.not_eq_true] at hq
      exact ⟨q, List.mem_cons_self q qs, hq, by simp [genericPathLoop, hq]⟩

/-- A containment failure with successful resolutions is a path escape, and
its reason names the original and the resolved path. -/
lemma validate_escape_reason (fs : FS) (path pd op pr r tr : String)
    (hpath : path ≠ "")
    (hpd : fs.resolve (posixPathStr pd) = .ok pr)
    (hin : fs.resolve (resolveInputStr fs pd path) = .ok r)
    (htmp : fs.resolve "/tmp" = .ok tr)
    (hfail : (validate_path_within_project fs path pd op true).1 = false) :
    (validate_path_within_project fs path pd op true).2
      = "Path escapes project directory: '" ++ path ++ "' resolves to '" ++ r
        ++ "' which is outside '" ++ pr ++ "'. " ++ op ++ " denied for security." := by
  unfold validate_path_within_project at hfail ⊢
  by_cases htd : isDescendantOf r tr = true
  · simp [hpath, hpd, hin, htmp, htd] at hfail
  · simp only [Bool.not_eq_true] at htd
    by_cases hprd : isDescendantOf r pr = true
    · simp [hpath, hpd, hin, htmp, htd, hprd] at hfail
    · simp only [Bool.not_eq_true] at hprd
      simp [hpath, hpd, hin, htmp, htd, hprd]

/-- C3 counterexample: `cp /opt/data.txt ./a` (project root `/proj`,
symlink-free filesystem).  The source `/opt/data.txt` is an extracted path
candidate whose canonical form lies outside both the project root and `/tmp`,
yet the hook allows the command: copy sources that fail containment are only
checked against the sensitive-path deny-list, and `/opt` is not on it. -/
theorem C3_cp_source_counterexample :
    "/opt/data.txt" ∈ extract_file_paths_from_command "cp /opt/data.txt ./a"
    ∧ (validate_path_within_project fsDefault "/opt/data.txt" "/proj"
        "File operation" true).1 = false
    ∧ bash_security_hook fsDefault "Bash" "cp /opt/data.txt ./a" (some "/proj")
      = .ok .allow :=
  ⟨by decide, rfl, rfl⟩

/-- C3 (amended): when a project root is supplied, the hook reaches the path
stage, and the command is not a copy/move, every extracted path candidate is
resolved (home expansion, project-relative interpretation, canonicalization);
a candidate outside both the project root and `/tmp` — or failing OS
resolution — makes the hook block, and when resolution succeeded the reason
names both the original and the resolved path. -/
theorem C3_generic_path_containment (fs : FS) (command pd : String)
    (hcmd : command ≠ "")
    (hne : extract_commands command ++ extract_substitution_commands command ≠ [])
    (hstage1 : allowlistAndValidate (split_command_segments command) command
        (extract_commands command ++ extract_substitution_commands command) = .ok none)
    (hcp : pyBasename ((extract_commands command
        ++ extract_substitution_commands command).headD "") ≠ "cp")
    (hmv : pyBasename ((extract_commands command
        ++ extract_substitution_commands command).headD "") ≠ "mv")
    (hfail : ∃ p ∈ extract_file_paths_from_command command,
        (validate_path_within_project fs p pd "File operation" true).1 = false) :
    ∃ q ∈ extract_file_paths_from_command command,
      (validate_path_within_project fs q pd "File operation" true).1 = false
      ∧ bash_security_hook fs "Bash" command (some pd)
          = .ok (.block ("Bash command blocked: "
              ++ (validate_path_within_project fs q pd "File operation" true).2
              ++ "\nCommand: " ++ command))
      ∧ (∀ pr r tr, q ≠ "" → fs.resolve (posixPathStr pd) = .ok pr
          → fs.resolve (resolveInputStr fs pd q) = .ok r
          → fs.resolve "/tmp" = .ok tr
          → (validate_path_within_project fs q pd "File operation" true).2
            = "Path escapes project directory: '" ++ q ++ "' resolves to '" ++ r
              ++ "' which is outside '" ++ pr ++ "'. " ++ "File operation"
              ++ " denied for security.") := by
  obtain ⟨q, hq, hqfail, hloop⟩ :=
    genericPathLoop_first_block fs pd command (extract_file_paths_from_command command) hfail
  refine ⟨q, hq, hqfail, ?_, ?_⟩
  · rw [hook_path_stage fs command pd hcmd hne hstage1]
    unfold pathStage
    simp only [hcp, hmv]
    simp [hloop]
  · intro pr r tr hq0 hpd hin htmp
    exact validate_escape_reason fs q pd "File operation" pr r tr hq0 hpd hin htmp hqfail

/-- Witness for C3 (amended): `cat /etc/hostname` with project root `/proj`
blocks, naming `/etc/hostname` and its canonical form. -/
theorem C3_witness :
    ∃ q ∈ extract_file_paths_from_command "cat /etc/hostname",
      (validate_path_within_project fsDefault q "/proj" "File operation" true).1 = false
      ∧ bash_security_hook fsDefault "Bash" "cat /etc/hostname" (some "/proj")
          = .ok (.block ("Bash command blocked: "
              ++ (validate_path_within_project fsDefault q "/proj" "File operation" true).2
              ++ "\nCommand: " ++ "cat /etc/hostname"))
      ∧ (∀ pr r tr, q ≠ "" → fsDefault.resolve (posixPathStr "/proj") = .ok pr
          → fsDefault.resolve (resolveInputStr fsDefault "/proj" q) = .ok r
          → fsDefault.resolve "/tmp" = .ok tr
          → (validate_path_within_project fsDefault q "/proj" "File operation" true).2
            = "Path escapes project directory: '" ++ q ++ "' resolves to '" ++ r
              ++ "' which is outside '" ++ pr ++ "'. " ++ "File operation"
              ++ " denied for security.") :=
  C3_generic_path_containment fsDefault "cat /etc/hostname" "/proj"
    (by decide) (by decide) rfl (by decide) (by decide)
    ⟨"/etc/hostname", by decide, rfl⟩

/-! ## Claim C4 -/

/-- A `mv` source failing containment makes the source loop block. -/
lemma mvSourceLoop_block (fs : FS) (pd command : String) :
    ∀ srcs : List String,
    (∃ s ∈ srcs, (validate_path_within_project fs s pd "Source path (mv)" true).1 = false) →
    ∃ r, mvSourceLoop fs pd command srcs = .block r := by
  intro srcs
  induction srcs with
  | nil => rintro ⟨s, hs, -⟩; cases hs
  | cons q qs ih =>
    rintro ⟨s, hs, hfail⟩
    by_cases hq : (validate_path_within_project fs q pd "Source path (mv)" true).1 = true
    · have hs' : s ∈ qs := by
        rcases List.mem_cons.mp hs with h | h
        · subst h; rw [hq] at hfail; cases hfail
        · exact h
      obtain ⟨r, hr⟩ := ih ⟨s, hs', hfail⟩
      exact ⟨r, by simpa [mvSourceLoop, hq] using hr⟩
    · simp only [Bool.not_eq_true] at hq
      exact ⟨"Bash command blocked: mv source "
          ++ (validate_path_within_project fs q pd "Source path (mv)" true).2
          ++ "\nCommand: " ++ command,
        by simp [mvSourceLoop, hq]⟩

/-- A `cp` source failing both containment and the sensitive-path check makes
the source loop block. -/
lemma cpSourceLoop_block (fs : FS) (pd command : String) :
    ∀ srcs : List String,
    (∃ s ∈ srcs, (validate_path_within_project fs s pd "cp source path" true).1 = false
      ∧ (validate_cp_source_path fs s).1 = false) →
    ∃ r, cpSourceLoop fs pd command srcs = .block r := by
  intro srcs
  induction srcs with
  | nil => rintro ⟨s, hs, -⟩; cases hs
  | cons q qs ih =>
    rintro ⟨s, hs, hfail, hsens⟩
    by_cases hq : (validate_path_within_project fs q pd "cp source path" true).1 = true
    · have hs' : s ∈ qs := by
        rcases List.mem_cons.mp hs with h | h
        · subst h; rw [hq] at hfail; cases hfail
        · exact h
      obtain ⟨r, hr⟩ := ih ⟨s, hs', hfail, hsens⟩
      exact ⟨r, by simpa [cpSourceLoop, hq] using hr⟩
    · simp only [Bool.not_eq_true] at hq
      by_cases hqs : (validate_cp_source_path fs q).1 = true
      · have hs' : s ∈ qs := by
          rcases List.mem_cons.mp hs with h | h
          · subst h; rw [hqs] at hsens; cases hsens
          · exact h
        obtain ⟨r, hr⟩ := ih ⟨s, hs', hfail, hsens⟩
        exact ⟨r, by simpa [cpSourceLoop, hq, hqs] using hr⟩
      · simp only [Bool.not_eq_true] at hqs
        exact ⟨"Bash command blocked: " ++ (validate_cp_source_path fs q).2
            ++ "\nCommand: " ++ command,
          by simp [cpSourceLoop, hq, hqs]⟩

/-- When every `cp` source passes containment or the sensitive-path check,
the source loop allows. -/
lemma cpSourceLoop_allow (fs : FS) (pd command : String) :
    ∀ srcs : List String,
    (∀ s ∈ srcs, (validate_path_within_project fs s pd "cp source path" true).1 = true
      ∨ (validate_cp_source_path fs s).1 = true) →
    cpSourceLoop fs pd command srcs = .allow := by
  intro srcs
  induction srcs with
  | nil => intro _; rfl
  | cons q qs ih =>
    intro h
    have hrest := fun s hs => h s (List.mem_cons_of_mem q hs)
    rcases h q (List.mem_cons_self q qs) with hq | hq
    · simpa [cpSourceLoop, hq] using ih hrest
    · by_cases hq1 : (validate_path_within_project fs q pd "cp source path" true).1 = true
      · simpa [cpSourceLoop, hq1] using ih hrest
      · simp only [Bool.not_eq_true] at hq1
        simpa [cpSourceLoop, hq1, hq] using ih hrest

/-- C4: for `cp`/`mv` invocations that reach the path stage with at least two
non-flag path arguments, the last is the destination and the earlier ones the
sources:  a destination outside project/`/tmp` always blocks (with a reason
built from the containment message); an `mv` source outside project/`/tmp`
blocks; a `cp` source outside project/`/tmp` blocks exactly when the
sensitive-path fallback also rejects it, otherwise the command is allowed. -/
theorem C4_cp_mv_path_policy (fs : FS) (command pd : String) (tokens : List String)
    (hcmd : command ≠ "")
    (hne : extract_commands command ++ extract_substitution_commands command ≠ [])
    (hstage1 : allowlistAndValidate (split_command_segments command) command
        (extract_commands command ++ extract_substitution_commands command) = .ok none)
    (htok : shlexSplit command = some tokens)
    (hlen : 2 ≤ (cpMvPaths tokens).length) :
    ((pyBasename ((extract_commands command
          ++ extract_substitution_commands command).headD "") = "cp"
        ∨ pyBasename ((extract_commands command
          ++ extract_substitution_commands command).headD "") = "mv") →
      (validate_path_within_project fs ((cpMvPaths tokens).getLastD "") pd
          "Destination path" true).1 = false →
      bash_security_hook fs "Bash" command (some pd)
        = .ok (.block ("Bash command blocked: "
            ++ (validate_path_within_project fs ((cpMvPaths tokens).getLastD "") pd
                "Destination path" true).2
            ++ "\nCommand: " ++ command)))
    ∧ (pyBasename ((extract_commands command
          ++ extract_substitution_commands command).headD "") = "mv" →
        (validate_path_within_project fs ((cpMvPaths tokens).getLastD "") pd
            "Destination path" true).1 = true →
        (∃ s ∈ (cpMvPaths tokens).dropLast,
          (validate_path_within_project fs s pd "Source path (mv)" true).1 = false) →
        ∃ r, bash_security_hook fs "Bash" command (some pd) = .ok (.block r))
    ∧ (pyBasename ((extract_commands command
          ++ extract_substitution_commands command).headD "") = "cp" →
        (validate_path_within_project fs ((cpMvPaths tokens).getLastD "") pd
            "Destination path" true).1 = true →
        (∃ s ∈ (cpMvPaths tokens).dropLast,
          (validate_path_within_project fs s pd "cp source path" true).1 = false
            ∧ (validate_cp_source_path fs s).1 = false) →
        ∃ r, bash_security_hook fs "Bash" command (some pd) = .ok (.block r))
    ∧ (pyBasename ((extract_commands command
          ++ extract_substitution_commands command).headD "") = "cp" →
        (validate_path_within_project fs ((cpMvPaths tokens).getLastD "") pd
            "Destination path" true).1 = true →
        (∀ s ∈ (cpMvPaths tokens).dropLast,
          (validate_path_within_project fs s pd "cp source path" true).1 = true
            ∨ (validate_cp_source_path fs s).1 = true) →
        bash_security_hook fs "Bash" command (some pd) = .ok .allow) := by
  have hstage : ∀ hb : pyBasename ((extract_commands command
        ++ extract_substitution_commands command).headD "") = "cp"
      ∨ pyBasename ((extract_commands command
        ++ extract_substitution_commands command).headD "") = "mv",
      bash_security_hook fs "Bash" command (some pd)
        = .ok (cpMvCheck fs pd command (pyBasename ((extract_commands command
            ++ extract_substitution_commands command).headD ""))) := by
    intro hb
    rw [hook_path_stage fs command pd hcmd hne hstage1]
    unfold pathStage
    rcases hb with hb | hb <;> rw [hb] <;> simp
  refine ⟨?_, ?_, ?_, ?_⟩
  · intro hb hdest
    rw [List.getLastD_eq_getLast?] at hdest
    rw [hstage hb]
    unfold cpMvCheck
    rw [htok]
    rcases hb with hb | hb <;> rw [hb] <;> simp [hlen, hdest]
  · intro hb hdest hsrc
    rw [List.getLastD_eq_getLast?] at hdest
    obtain ⟨r, hr⟩ := mvSourceLoop_block fs pd command (cpMvPaths tokens).dropLast hsrc
    refine ⟨r, ?_⟩
    rw [hstage (Or.inr hb)]
    unfold cpMvCheck
    rw [htok, hb]
    simp [hlen, hdest, hr]
  · intro hb hdest hsrc
    rw [List.getLastD_eq_getLast?] at hdest
    obtain ⟨r, hr⟩ := cpSourceLoop_block fs pd command (cpMvPaths tokens).dropLast hsrc
    refine ⟨r, ?_⟩
    rw [hstage (Or.inl hb)]
    unfold cpMvCheck
    rw [htok, hb]
    simp [hlen, hdest, hr]
  · intro hb hdest hsrc
    rw [List.getLastD_eq_getLast?] at hdest
    have hallow := cpSourceLoop_allow fs pd command (cpMvPaths tokens).dropLast hsrc
    rw [hstage (Or.inl hb)]
    unfold cpMvCheck
    rw [htok, hb]
    simp [hlen, hdest, hallow]

/-- Witness for C4: `cp ~/.ssh/id_rsa ./key` blocks (source outside
project/`/tmp` and on the sensitive deny-list) while `cp ./a.txt ./b.txt`
is allowed, both with project root `/proj`. -/
theorem C4_witness :
    (∃ r, bash_security_hook fsDefault "Bash" "cp ~/.ssh/id_rsa ./key" (some "/proj")
      = .ok (.block r))
    ∧ bash_security_hook fsDefault "Bash" "cp ./a.txt ./b.txt" (some "/proj")
      = .ok .allow := by
  constructor
  · exact (C4_cp_mv_path_policy fsDefault "cp ~/.ssh/id_rsa ./key" "/proj"
      ["cp", "~/.ssh/id_rsa", "./key"] (by decide) (by decide) rfl rfl (by decide)).2.2.1
      rfl rfl ⟨"~/.ssh/id_rsa", by decide, rfl, rfl⟩
  · exact (C4_cp_mv_path_policy fsDefault "cp ./a.txt ./b.txt" "/proj"
      ["cp", "./a.txt", "./b.txt"] (by decide) (by decide) rfl rfl (by decide)).2.2.2
      rfl rfl (by
        intro s hs
        rw [show (cpMvPaths ["cp", "./a.txt", "./b.txt"]).dropLast = ["./a.txt"] from rfl] at hs
        have hs' : s = "./a.txt" := List.mem_singleton.mp hs
        subst hs'
        left
        rfl)

/-! ## Claim C9 -/

/-- C9: a hook invocation is pure over its input and the read-only static
configuration.  In the embedding the configuration lists are immutable
definitions and the hook is a function, so the formal content is that the
Decision depends only on the call's input and the (extensional) behaviour of
the filesystem: two evaluations of the same command string and project root
against filesystems that answer every `expanduser`/`resolve` query equally
return the same Decision. -/
theorem C9_pure_determinism (fs₁ fs₂ : FS) (toolName command : String)
    (projectDir : Option String)
    (he : ∀ s, fs₁.expanduser s = fs₂.expanduser s)
    (hr : ∀ s, fs₁.resolve s = fs₂.resolve s) :
    bash_security_hook fs₁ toolName command projectDir
      = bash_security_hook fs₂ toolName command projectDir := by
  have hfs : fs₁ = fs₂ := by
    obtain ⟨e₁, r₁⟩ := fs₁
    obtain ⟨e₂, r₂⟩ := fs₂
    have h1 : e₁ = e₂ := funext he
    have h2 : r₁ = r₂ := funext hr
    rw [h1, h2]
  rw [hfs]

/-- Witness for C9: repeated evaluation of the same call agrees. -/
theorem C9_witness :
    bash_security_hook fsDefault "Bash" "cat /etc/hostname" (some "/proj")
      = bash_security_hook fsDefault "Bash" "cat /etc/hostname" (some "/proj") :=
  C9_pure_determinism fsDefault fsDefault "Bash" "cat /etc/hostname" (some "/proj")
    (fun _ => rfl) (fun _ => rfl)

/-! ## Claim C10 -/

/-- C10: a non-`Bash` tool name, or an empty/missing command string, makes
the hook return allow (`{}`) immediately. -/
theorem C10_non_bash_or_empty_allows (fs : FS) (toolName command : String)
    (projectDir : Option String) (h : toolName ≠ "Bash" ∨ command = "") :
    bash_security_hook fs toolName command projectDir = .ok .allow := by
  rcases h with h | h
  · unfold bash_security_hook
    simp [h]
  · subst h
    unfold bash_security_hook
    by_cases ht : toolName = "Bash" <;> simp [ht]

/-- Witness for C10: a non-Bash tool call with a dangerous command, and a
Bash call with an empty command, both pass through as allow. -/
theorem C10_witness :
    bash_security_hook fsDefault "Read" "rm -rf /" none = .ok .allow
    ∧ bash_security_hook fsDefault "Bash" "" (some "/proj") = .ok .allow :=
  ⟨C10_non_bash_or_empty_allows fsDefault "Read" "rm -rf /" none (Or.inl (by decide)),
   C10_non_bash_or_empty_allows fsDefault "Bash" "" (some "/proj") (Or.inr rfl)⟩

end SecurityHook
